import Mathlib

/-!
Verification development for the `dcpu16` emulator (Go).

The definitions below are a shallow embedding of the Go sources:
  - dcpu/core/core.go       (pipeline interpreter `StepCycle`, operand decoding)
  - dcpu/core/registers.go  (register file)
  - dcpu/core/memory.go     (`Memory`: backing ram, protected regions, MMIO regions)
  - dcpu/core/opcodes.go    (opcode constants, 5-bit layout with extended offset 0x100)
  - dcpu/machine.go         (`ClockRate.String` formatting)

Machine words (Go type `Word = uint16`) are embedded as `Nat` kept below
2^16; every place where Go wraps (Word addition/subtraction, uint32
arithmetic, int16/int32 reinterpretation) carries an explicit modulus.
Go `error` results are embedded as `Except CoreError` / `Option CoreError`
(`none` = Go `nil`).
-/

namespace DCPU16

/-- Word-sized modulus 2^16 (Go `Word` is `uint16`). -/
def wordMod : Nat := 65536

/-- Go `Word` addition `a + b` (wraps modulo 2^16). -/
def wadd (a b : Nat) : Nat := (a + b) % wordMod

/-- Go `Word` subtraction `a - b` (wraps modulo 2^16); arguments are Word values. -/
def wsub (a b : Nat) : Nat := (a + (wordMod - b % wordMod)) % wordMod

/-- Reinterpret the low 16 bits as a signed value: Go `int16(x)`. -/
def toInt16 (n : Nat) : Int :=
  if n % 65536 < 32768 then ((n % 65536 : Nat) : Int) else ((n % 65536 : Nat) : Int) - 65536

/-- Reinterpret the low 32 bits as a signed value: Go `int32(x)` for unsigned `x`. -/
def toInt32 (n : Nat) : Int :=
  if n % 4294967296 < 2147483648 then ((n % 4294967296 : Nat) : Int)
  else ((n % 4294967296 : Nat) : Int) - 4294967296

/-- Wrap a signed value into int32 range, two's complement (Go int32 overflow). -/
def wrap32 (x : Int) : Int := (x + 2147483648) % 4294967296 - 2147483648

/-- Go `Word(x)` applied to a signed quantity: the low 16 bits of the two's
complement representation. -/
def intToWord (x : Int) : Nat := (x % 65536).toNat

/-- Errors produced by the core (Go `error` values:
`ProtectionError`, `ErrOutOfBounds`, `OpcodeError`, `HaltError`, and the two
`errors.New` strings of MapRegion/UnmapRegion). `runtimeFault` stands for a Go
runtime panic; it is proved unreachable where the code relies on that. -/
inductive CoreError where
  | protection (addr : Nat)
  | outOfBounds
  | opcode (op : Nat)
  | halt
  | mapConflict
  | noRegionMatches
  | runtimeFault
deriving DecidableEq

/-- Go `Region{Start, Length Word}` (memory.go). -/
structure Region where
  start : Nat
  length : Nat
deriving DecidableEq

/-- Go `Region.Contains(address)`: `address >= r.Start && address < r.Start+r.Length`
with Word (wrapping) addition. -/
def Region.containsB (r : Region) (address : Nat) : Bool :=
  decide (r.start ≤ address) && decide (address < wadd r.start r.length)

/-- Go `Region.End()`: `r.Start + r.Length` with Word (wrapping) addition. -/
def Region.endAddr (r : Region) : Nat := wadd r.start r.length

/-- Go `Region.Union(r2)` (memory.go): smallest start, furthest end, Word arithmetic. -/
def Region.union (r r2 : Region) : Region :=
  let regStart := if r2.start < r.start then r2.start else r.start
  let regLength :=
    if r.endAddr < r2.endAddr then wsub r2.endAddr regStart else wsub r.endAddr regStart
  { start := regStart, length := regLength }

/-- Go `MMIORegion`: a `Region` plus get/set callbacks. The set callback returns
a Go `error` (`none` = nil). -/
structure MMIORegion where
  region : Region
  get : Nat → Nat
  set : Nat → Nat → Option CoreError

/-- Go `Memory`: 0x10000-word backing array, the protected-region list and the
mapped (MMIO) region list. The Go field `protected` is a Lean keyword, hence
`protectedList`. An empty list stands for a nil Go slice. -/
structure Memory where
  ram : Nat → Nat
  protectedList : List Region
  mapped : List MMIORegion

/-- Go `Memory.Load(offset)`: first mapped region containing the offset wins,
else the backing ram. -/
def Memory.Load (m : Memory) (offset : Nat) : Nat :=
  match m.mapped.find? (fun r => r.region.containsB offset) with
  | some r => r.get (wsub offset r.region.start)
  | none => m.ram offset

/-- The protected-region scan of Go `Memory.Store`: report a hit on the first
region containing the offset, stop early once `region.Start > offset`. -/
def protHit : List Region → Nat → Bool
  | [], _ => false
  | r :: rest, offset =>
    if r.containsB offset then true
    else if offset < r.start then false
    else protHit rest offset

/-- Go `Memory.Store(offset, value)`: delegate to a containing mapped region's
set callback; otherwise fail with ProtectionError when inside a protected
region; otherwise write the backing ram. -/
def Memory.Store (m : Memory) (offset value : Nat) : Except CoreError Memory :=
  match m.mapped.find? (fun r => r.region.containsB offset) with
  | some r =>
    match r.set (wsub offset r.region.start) value with
    | some e => .error e
    | none => .ok m
  | none =>
    if protHit m.protectedList offset then .error (.protection offset)
    else .ok { m with ram := fun a => if a = offset then value else m.ram a }

/-- The conflict scan of Go `Memory.MapRegion`: for each existing region in
order, a conflict is `region.Contains(start) || region.Contains(length)`
(sic: the second operand is the *length*), with early exit once
`region.Start > start+length` (Word addition). -/
def mapScan : List MMIORegion → Nat → Nat → Bool
  | [], _, _ => false
  | r :: rest, start, length =>
    if r.region.containsB start || r.region.containsB length then true
    else if wadd start length < r.region.start then false
    else mapScan rest start length

/-- Go `Memory.MapRegion(start, length, get, set)`: bounds check
`int(start)+int(length) > len(m.ram)` (non-wrapping), the conflict scan, then
`append` of the new region at the end of the list. -/
def Memory.MapRegion (m : Memory) (start length : Nat) (get : Nat → Nat)
    (set : Nat → Nat → Option CoreError) : Except CoreError Memory :=
  if 65536 < start + length then .error .outOfBounds
  else if mapScan m.mapped start length then .error .mapConflict
  else .ok { m with mapped := m.mapped ++ [{ region := ⟨start, length⟩, get := get, set := set }] }

/-- The scan of Go `Memory.UnmapRegion`: find the index of the region whose
start and length match exactly, stopping early once `region.Start > start`. -/
def unmapScan : List MMIORegion → Nat → Nat → Nat → Option Nat
  | [], _, _, _ => none
  | r :: rest, start, length, i =>
    if r.region.start = start ∧ r.region.length = length then some i
    else if start < r.region.start then none
    else unmapScan rest start length (i + 1)

/-- Go's `copy(m.mapped[i:], m.mapped[i+1:])` on a slice: elements after index
`i` shift left one place and the final slot keeps the old last element; the
slice length is unchanged (UnmapRegion performs no truncation). -/
def shiftLeftFrom (l : List MMIORegion) (i : Nat) : List MMIORegion :=
  l.take i ++ l.drop (i + 1) ++ (match l.getLast? with | some x => [x] | none => [])

/-- Go `Memory.UnmapRegion(start, length)`: bounds check, exact-match scan,
then the `copy` shift (see `shiftLeftFrom`). -/
def Memory.UnmapRegion (m : Memory) (start length : Nat) : Except CoreError Memory :=
  if 65536 < start + length then .error .outOfBounds
  else
    match unmapScan m.mapped start length 0 with
    | some i => .ok { m with mapped := shiftLeftFrom m.mapped i }
    | none => .error .noRegionMatches

/-- The insertion loop of Go `MemProtect(offset, length, true)` over a non-nil
protected list: insert before the first region with `Start > offset+length`;
on the first region with `End() > offset`, either bridge with the next region
(`Length = next.End() - Start`, next deleted) or union in place; the loop
falls off the end without inserting otherwise. Word arithmetic throughout. -/
def memProtectAdd (offset length : Nat) : List Region → List Region
  | [] => []
  | r :: rest =>
    if wadd offset length < r.start then
      { start := offset, length := length } :: r :: rest
    else if offset < r.endAddr then
      match rest with
      | next :: rest2 =>
        if next.start < wadd offset length then
          { start := r.start, length := wsub next.endAddr r.start } :: rest2
        else
          r.union { start := offset, length := length } :: next :: rest2
      | [] => [r.union { start := offset, length := length }]
    else
      r :: memProtectAdd offset length rest

/-- The removal loop of Go `MemProtect(offset, length, false)`: stop on
`Start > offset+length`; on overlap (`End() > offset`), delete a totally
covered region (Go then increments `i`, skipping the element shifted into
place — hence the extra head split after a delete), trim the head of a region
extending past the end, or trim the tail of a region starting before the
range. The loop continues after each modification. -/
def memProtectRemove (offset length : Nat) : List Region → List Region
  | [] => []
  | r :: rest =>
    if wadd offset length < r.start then r :: rest
    else if offset < r.endAddr then
      if offset ≤ r.start then
        if !(Region.containsB r (wadd offset length)) then
          match rest with
          | next :: rest2 => next :: memProtectRemove offset length rest2
          | [] => []
        else
          { start := wadd offset length, length := wsub r.endAddr (wadd offset length) }
            :: memProtectRemove offset length rest
      else
        { start := r.start, length := wsub offset r.start } :: memProtectRemove offset length rest
    else
      r :: memProtectRemove offset length rest

/-- Go `State.MemProtect(offset, length, protected)` (it only touches `s.Ram`,
so it is embedded on `Memory`): bounds check, then either the insertion loop
(a nil list becomes the singleton) or the removal loop. -/
def Memory.MemProtect (m : Memory) (offset length : Nat) (prot : Bool) :
    Except CoreError Memory :=
  if 65536 < offset + length then .error .outOfBounds
  else if prot then
    .ok { m with protectedList :=
      match m.protectedList with
      | [] => [{ start := offset, length := length }]
      | l => memProtectAdd offset length l }
  else
    .ok { m with protectedList := memProtectRemove offset length m.protectedList }

/-- A fresh memory: zero ram, no protected regions, no mapped regions. -/
def emptyMemory : Memory := { ram := fun _ => 0, protectedList := [], mapped := [] }

/-- Projection of the mapped-region list down to (start, length) pairs,
forgetting the (function-valued) callbacks. -/
def mappedSig (m : Memory) : List (Nat × Nat) :=
  m.mapped.map (fun r => (r.region.start, r.region.length))

/-- A trivially zero MMIO get callback, used for concrete test inputs. -/
def zget : Nat → Nat := fun _ => 0

/-- A trivially succeeding MMIO set callback, used for concrete test inputs. -/
def zset : Nat → Nat → Option CoreError := fun _ _ => none

/-! Register indices (registers.go). -/

def registerA : Nat := 0
def registerB : Nat := 1
def registerC : Nat := 2
def registerX : Nat := 3
def registerY : Nat := 4
def registerZ : Nat := 5
def registerI : Nat := 6
def registerJ : Nat := 7
def registerSP : Nat := 8
def registerPC : Nat := 9
def registerEX : Nat := 10
def registerIA : Nat := 11

/-! Opcode constants (opcodes.go): the 5-bit basic range, and special opcodes
lifted by `opcodeExtendedOffset = 0x100`. -/

def opcodeSET : Nat := 0x01
def opcodeADD : Nat := 0x02
def opcodeSUB : Nat := 0x03
def opcodeMUL : Nat := 0x04
def opcodeMLI : Nat := 0x05
def opcodeDIV : Nat := 0x06
def opcodeDVI : Nat := 0x07
def opcodeMOD : Nat := 0x08
def opcodeAND : Nat := 0x09
def opcodeBOR : Nat := 0x0a
def opcodeXOR : Nat := 0x0b
def opcodeSHR : Nat := 0x0c
def opcodeASR : Nat := 0x0d
def opcodeSHL : Nat := 0x0e
def opcodeSTI : Nat := 0x0f
def opcodeIFB : Nat := 0x10
def opcodeIFC : Nat := 0x11
def opcodeIFE : Nat := 0x12
def opcodeIFN : Nat := 0x13
def opcodeIFG : Nat := 0x14
def opcodeIFA : Nat := 0x15
def opcodeIFL : Nat := 0x16
def opcodeIFU : Nat := 0x17
def opcodeADX : Nat := 0x1a
def opcodeSBX : Nat := 0x1b
def opcodeExtendedOffset : Nat := 0x100
def opcodeExtJSR : Nat := 0x101
def opcodeExtHCF : Nat := 0x107
def opcodeExtINT : Nat := 0x108
def opcodeExtIAG : Nat := 0x109
def opcodeExtIAS : Nat := 0x10a
def opcodeExtHWN : Nat := 0x110
def opcodeExtHWQ : Nat := 0x111
def opcodeExtHWI : Nat := 0x112

/-! Operand constants (core.go). -/

def operandA : Nat := 0x00
def operandPushPop : Nat := 0x18
def operandPC : Nat := 0x1c

/-! Address kinds and pipeline steps (core.go). -/

def addressTypeNone : Nat := 0
def addressTypeRegister : Nat := 1
def addressTypeMemory : Nat := 2

/-- Go `Address{addressType, index}`: the resolved write-back target. -/
structure Address where
  addressType : Nat
  index : Nat
deriving DecidableEq

def stateStepFetch : Nat := 0
def stateStepDecodeA : Nat := 1
def stateStepDecodeB : Nat := 2
def stateStepExecute : Nat := 3

/-- Go `State` (core.go): the register file (a 12-cell array, embedded as a
function on indices), the `Ram` memory, the latched `lastError`, and the
interpreter scratch. -/
structure State where
  regs : Nat → Nat
  ram : Memory
  lastError : Option CoreError
  step : Nat
  cycleCost : Nat
  op : Nat
  a : Nat
  b : Nat
  delayed : Bool
  address : Address

/-- Write one register cell. -/
def setReg (r : Nat → Nat) (i v : Nat) : Nat → Nat := fun j => if j = i then v else r j

/-- Register write on a state. -/
def State.setRegW (s : State) (i v : Nat) : State := { s with regs := setReg s.regs i v }

/-- Go `decodeOpcode(value)`: 5-bit opcode, 5-bit b, 6-bit a; an opcode of 0
promotes b into the extended range (b becomes 0). Returns (op, a, b). -/
def decodeOpcode (value : Nat) : Nat × Nat × Nat :=
  let o := value % 32
  let bv := (value / 32) % 32
  let av := (value / 1024) % 64
  if o = 0 then (bv + opcodeExtendedOffset, av, 0) else (o, av, bv)

/-- Go `cycleCost(opcode)` (the `cycleCostMap` lookup): `none` is the
invalid-opcode case `OpcodeError`. -/
def cycleCost (op : Nat) : Option Nat :=
  if op = opcodeSET then some 1
  else if op = opcodeADD ∨ op = opcodeSUB ∨ op = opcodeMUL ∨ op = opcodeMLI then some 2
  else if op = opcodeDIV ∨ op = opcodeDVI ∨ op = opcodeMOD then some 3
  else if op = opcodeAND ∨ op = opcodeBOR ∨ op = opcodeXOR then some 1
  else if op = opcodeSHR ∨ op = opcodeASR ∨ op = opcodeSHL then some 2
  else if op = opcodeSTI then some 2
  else if opcodeIFB ≤ op ∧ op ≤ opcodeIFU then some 2
  else if op = opcodeADX ∨ op = opcodeSBX then some 3
  else if op = opcodeExtJSR then some 3
  else if op = opcodeExtHCF then some 9
  else if op = opcodeExtINT then some 4
  else if op = opcodeExtIAG ∨ op = opcodeExtIAS then some 1
  else if op = opcodeExtHWN then some 2
  else if op = opcodeExtHWQ ∨ op = opcodeExtHWI then some 4
  else none

/-- Go `instructionLength(opcode)`: 1 word, plus one per operand whose class
consumes a next word (0x10..0x17, 0x1e, 0x1f); the b operand only counts for
basic opcodes. -/
def instructionLength (opcode : Nat) : Nat :=
  let dec := decodeOpcode opcode
  let op := dec.1
  let av := dec.2.1
  let bv := dec.2.2
  let operandCount := fun (operand : Nat) =>
    if (0x10 ≤ operand ∧ operand ≤ 0x17) ∨ operand = 0x1e ∨ operand = 0x1f then 1 else 0
  let length := 1 + operandCount av
  if op < opcodeExtendedOffset then length + operandCount bv else length

/-- Go `State.nextWord()`: load the word at PC, then increment PC. -/
def State.nextWordF (s : State) : Nat × State :=
  let val := s.ram.Load (s.regs registerPC)
  (val, s.setRegW registerPC (wadd (s.regs registerPC) 1))

/-- Go `State.loadAddress(address)`. -/
def State.loadAddr (s : State) (address : Address) : Nat :=
  if address.addressType = addressTypeRegister then s.regs address.index
  else if address.addressType = addressTypeMemory then s.ram.Load address.index
  else 0

/-- Go `State.storeAddress(address, value)`: registers are written directly,
memory goes through `Memory.Store` (which may fail), `None` is a no-op. -/
def State.storeAddr (s : State) (address : Address) (value : Nat) :
    Except CoreError State :=
  if address.addressType = addressTypeRegister then
    .ok (s.setRegW address.index value)
  else if address.addressType = addressTypeMemory then
    match s.ram.Store address.index value with
    | .error e => .error e
    | .ok m => .ok { s with ram := m }
  else .ok s

/-- Go `State.fetchOperand(operand, loadWord, isB)`: returns
(value, resolved address, delay) plus the updated state; when the resolved
address is not `None`, the value is read back through `loadAddress`. -/
def State.fetchOperand (s : State) (operand : Nat) (loadWord isB : Bool) :
    Nat × Address × Bool × State :=
  let res :=
    if operand ≤ 0x07 then
      (0, Address.mk addressTypeRegister operand, false, s)
    else if operand ≤ 0x0f then
      (0, Address.mk addressTypeMemory (s.regs (operand - 0x08)), false, s)
    else if operand ≤ 0x17 then
      if loadWord then
        let ws := s.nextWordF
        (0, Address.mk addressTypeMemory (wadd ws.1 (ws.2.regs (operand - 0x10))), false, ws.2)
      else (0, Address.mk addressTypeNone 0, true, s)
    else if operand = operandPushPop then
      if isB then
        let s2 := s.setRegW registerSP (wsub (s.regs registerSP) 1)
        (0, Address.mk addressTypeMemory (s2.regs registerSP), false, s2)
      else
        let addr := Address.mk addressTypeMemory (s.regs registerSP)
        (0, addr, false, s.setRegW registerSP (wadd (s.regs registerSP) 1))
    else if operand = 0x19 then
      (0, Address.mk addressTypeMemory (s.regs registerSP), false, s)
    else if operand = 0x1a then
      if loadWord then
        let ws := s.nextWordF
        (0, Address.mk addressTypeMemory (wadd (ws.2.regs registerSP) ws.1), false, ws.2)
      else (0, Address.mk addressTypeNone 0, true, s)
    else if operand ≤ 0x1d then
      (0, Address.mk addressTypeRegister (operand - 0x1b + registerSP), false, s)
    else if operand = 0x1e then
      if loadWord then
        let ws := s.nextWordF
        (0, Address.mk addressTypeMemory ws.1, false, ws.2)
      else (0, Address.mk addressTypeNone 0, true, s)
    else if operand = 0x1f then
      if loadWord then
        let ws := s.nextWordF
        (ws.1, Address.mk addressTypeNone 0, false, ws.2)
      else (0, Address.mk addressTypeNone 0, true, s)
    else
      (wsub operand 0x21, Address.mk addressTypeNone 0, false, s)
  let val := res.1
  let address := res.2.1
  let delay := res.2.2.1
  let s2 := res.2.2.2
  if address.addressType ≠ addressTypeNone then (s2.loadAddr address, address, delay, s2)
  else (val, address, delay, s2)

/-- The chain-measuring loop of Go `State.skipInstruction`: starting at PC,
accumulate instruction lengths and a one-cycle-per-instruction cost while the
decoded opcode is an IFx; stop after the first non-IFx instruction. The Go
loop is unbounded; the fuel (one more than the address space) only cuts the
degenerate everything-is-IFx program on which Go does not terminate. -/
def skipLoop : Nat → State → Nat → Nat → Nat × Nat
  | 0, _, count, cost => (count, cost)
  | fuel + 1, s, count, cost =>
    let opcode := s.ram.Load (wadd (s.regs registerPC) count)
    let count2 := wadd count (instructionLength opcode)
    let cost2 := cost + 1
    let op := (decodeOpcode opcode).1
    if opcodeIFB ≤ op ∧ op ≤ opcodeIFU then skipLoop fuel s count2 cost2
    else (count2, cost2)

/-- Go `State.skipInstruction`: synthesise `SET PC, pc+count` with a cycle
cost equal to the number of instructions in the skipped chain. -/
def State.skipInstruction (s : State) : State :=
  let cc := skipLoop 65537 s 0 0
  { s with op := opcodeSET, a := wadd (s.regs registerPC) cc.1,
           address := Address.mk addressTypeRegister registerPC,
           cycleCost := cc.2 }

/-- The DVI arithmetic of the execute phase (core.go): both Go divisions with
`a != 0` already established by the guard. `goQuot` below returns `none`
exactly when the divisor is zero, the only case in which a Go integer
division faults; Go defines the quotient of the most negative value by minus
one to wrap, which the
truncated quotient followed by `intToWord` reproduces. -/
def goQuot (x y : Int) : Option Int :=
  if y = 0 then none else some (x.tdiv y)

/-- Go DVI body: `result := int16(s.b) / int16(s.a)` and
`EX := Word((int32(s.b) << 16) / int32(s.a))`; `none` would be a Go runtime
fault (division by zero), proved unreachable for 16-bit operands with a ≠ 0. -/
def dviCompute (av bv : Nat) : Option (Nat × Nat) :=
  match goQuot (toInt16 bv) (toInt16 av) with
  | none => none
  | some q =>
    match goQuot (wrap32 (toInt32 bv * 65536)) (toInt32 av) with
    | none => none
    | some q2 => some (intToWord q, intToWord q2)

/-- Commit phase shared by the execute cases (core.go tail of `StepCycle`):
`storeAddress(s.address, val)`, latching any error, then back to fetch. -/
def finishExec (s : State) (val : Nat) : State × Option CoreError :=
  match s.storeAddr s.address val with
  | .error e => ({ s with lastError := some e }, some e)
  | .ok s2 => ({ s2 with step := stateStepFetch }, none)

/-- One cycle of the Go `StepCycle` pipeline, past the latched-error check.
The Go `switch s.step` with `fallthrough` is embedded as re-dispatch on the
step tag (each phase assigns `s.step` before falling through, so the two are
equivalent); the fuel bounds the fallthrough chain plus the two inner
`StepCycle` calls of the INT case (depth at most 10 from `StepCycle`'s 16;
those inner calls always see `lastError == nil`, so dispatching directly is
faithful). Branches that Go ends with `break` return without re-dispatch. -/
def stepAux : Nat → State → State × Option CoreError
  | 0, s => (s, none)
  | fuel + 1, s =>
    if s.step = stateStepFetch then
      -- Fetch the next opcode
      let ws := s.nextWordF
      let dec := decodeOpcode ws.1
      let s := { ws.2 with op := dec.1, a := dec.2.1, b := dec.2.2 }
      match cycleCost s.op with
      | none => ({ s with lastError := some (.opcode s.op) }, some (.opcode s.op))
      | some cost =>
        stepAux fuel { s with cycleCost := cost, address := Address.mk addressTypeNone 0,
                              delayed := false, step := stateStepDecodeA }
    else if s.step = stateStepDecodeA then
      -- decode operand A
      let r := s.fetchOperand s.a s.delayed false
      let s := { r.2.2.2 with delayed := r.2.2.1 }
      if r.2.2.1 then (s, none)
      else
        let s := { s with a := r.1 }
        if opcodeExtendedOffset ≤ s.op then
          stepAux fuel { s with address := r.2.1, step := stateStepExecute }
        else
          stepAux fuel { s with step := stateStepDecodeB }
    else if s.step = stateStepDecodeB then
      -- decode operand B
      let r := s.fetchOperand s.b s.delayed true
      let s := { r.2.2.2 with delayed := r.2.2.1 }
      if r.2.2.1 then (s, none)
      else
        stepAux fuel { s with b := r.1, address := r.2.1, step := stateStepExecute }
    else if s.step = stateStepExecute then
      -- execute the instruction
      if 1 < s.cycleCost then ({ s with cycleCost := s.cycleCost - 1 }, none)
      else if s.op = opcodeSET then
        finishExec s (s.a % 65536)
      else if s.op = opcodeADD then
        let result := (s.b + s.a) % 4294967296
        finishExec (s.setRegW registerEX ((result / 65536) % 65536)) (result % 65536)
      else if s.op = opcodeSUB then
        let result := (s.b + (4294967296 - s.a % 4294967296)) % 4294967296
        finishExec (s.setRegW registerEX ((result / 65536) % 65536)) (result % 65536)
      else if s.op = opcodeMUL then
        let result := (s.b * s.a) % 4294967296
        finishExec (s.setRegW registerEX ((result / 65536) % 65536)) (result % 65536)
      else if s.op = opcodeMLI then
        let result := wrap32 (toInt32 s.b * toInt32 s.a)
        finishExec (s.setRegW registerEX (intToWord (result.fdiv 65536))) (intToWord result)
      else if s.op = opcodeDIV then
        if s.a = 0 then finishExec (s.setRegW registerEX 0) 0
        else
          let result := s.b / s.a
          finishExec (s.setRegW registerEX ((s.b * 65536 % 4294967296 / s.a) % 65536))
            (result % 65536)
      else if s.op = opcodeDVI then
        if s.a = 0 then finishExec (s.setRegW registerEX 0) 0
        else
          match dviCompute s.a s.b with
          | some ve => finishExec (s.setRegW registerEX ve.2) ve.1
          | none => ({ s with lastError := some .runtimeFault }, some .runtimeFault)
      else if s.op = opcodeMOD then
        if s.a = 0 then finishExec s 0
        else finishExec s (s.b % s.a % 65536)
      else if s.op = opcodeAND then
        finishExec s ((s.b &&& s.a) % 65536)
      else if s.op = opcodeBOR then
        finishExec s ((s.b ||| s.a) % 65536)
      else if s.op = opcodeXOR then
        finishExec s ((s.b ^^^ s.a) % 65536)
      else if s.op = opcodeSHR then
        let result := s.b * 65536 % 4294967296 / 2 ^ s.a
        finishExec (s.setRegW registerEX (result % 65536)) ((result / 65536) % 65536)
      else if s.op = opcodeASR then
        let result := (wrap32 (toInt32 s.b * 65536)).fdiv (2 ^ s.a)
        finishExec (s.setRegW registerEX (intToWord result)) (intToWord (result.fdiv 65536))
      else if s.op = opcodeSHL then
        -- core.go: result := s.a << s.b  (the A operand shifted by the B operand)
        let result := s.a * 2 ^ s.b % 4294967296
        finishExec (s.setRegW registerEX ((result / 65536) % 65536)) (result % 65536)
      else if s.op = opcodeSTI then
        let s := s.setRegW registerI (wadd (s.regs registerI) 1)
        let s := s.setRegW registerJ (wadd (s.regs registerJ) 1)
        finishExec s (s.a % 65536)
      else if opcodeIFB ≤ s.op ∧ s.op ≤ opcodeIFU then
        let test : Bool :=
          if s.op = opcodeIFB then decide ((s.b &&& s.a) ≠ 0)
          else if s.op = opcodeIFC then decide ((s.b &&& s.a) = 0)
          else if s.op = opcodeIFE then decide (s.b = s.a)
          else if s.op = opcodeIFN then decide (s.b ≠ s.a)
          else if s.op = opcodeIFG then decide (s.a < s.b)
          else if s.op = opcodeIFA then decide (toInt16 s.a < toInt16 s.b)
          else if s.op = opcodeIFL then decide (s.b < s.a)
          else decide (toInt16 s.b < toInt16 s.a)
        if !test then (s.skipInstruction, none)
        else finishExec { s with address := Address.mk addressTypeNone 0 } 0
      else if s.op = opcodeADX then
        let result := (s.b + s.a + s.regs registerEX) % 4294967296
        finishExec (s.setRegW registerEX ((result / 65536) % 65536)) (result % 65536)
      else if s.op = opcodeSBX then
        let result := (s.b + (4294967296 - s.a % 4294967296) + s.regs registerEX) % 4294967296
        finishExec (s.setRegW registerEX ((result / 65536) % 65536)) (result % 65536)
      else if s.op = opcodeExtJSR then
        let val := s.regs registerPC
        let s := s.setRegW registerSP (wsub (s.regs registerSP) 1)
        let s := { s with address := Address.mk addressTypeMemory (s.regs registerSP) }
        finishExec (s.setRegW registerPC (s.a % 65536)) val
      else if s.op = opcodeExtHCF then
        ({ s with lastError := some .halt }, some .halt)
      else if s.op = opcodeExtINT then
        let message := s.a
        let s := { s with op := opcodeSET, b := operandPushPop, a := operandPC,
                          cycleCost := 0, step := stateStepDecodeA }
        match stepAux fuel s with
        | (s, some e) => (s, some e)
        | (s, none) =>
          let s := { s with op := opcodeSET, b := operandPushPop, a := operandA,
                            cycleCost := 0, step := stateStepDecodeA }
          match stepAux fuel s with
          | (s, some e) => (s, some e)
          | (s, none) =>
            let s := s.setRegW registerA (message % 65536)
            let s := s.setRegW registerPC (s.regs registerIA)
            finishExec { s with address := Address.mk addressTypeNone 0 } 0
      else if s.op = opcodeExtIAG then
        finishExec s (s.regs registerIA)
      else if s.op = opcodeExtIAS then
        finishExec { s with address := Address.mk addressTypeRegister registerIA } (s.a % 65536)
      else if s.op = opcodeExtHWN then
        finishExec s 0
      else if s.op = opcodeExtHWQ then
        let s := s.setRegW registerA 0
        let s := s.setRegW registerB 0
        let s := s.setRegW registerC 0
        let s := s.setRegW registerX 0
        let s := s.setRegW registerY 0
        finishExec { s with address := Address.mk addressTypeNone 0 } 0
      else if s.op = opcodeExtHWI then
        finishExec { s with address := Address.mk addressTypeNone 0 } 0
      else
        -- Go: panic("Unexpected opcode"); unreachable, cycleCost validated it
        ({ s with lastError := some .runtimeFault }, some .runtimeFault)
    else (s, none)

/-- Go `State.StepCycle()`: return the latched error unchanged if set, else
run one cycle of the pipeline. -/
def State.StepCycle (s : State) : State × Option CoreError :=
  match s.lastError with
  | some err => (s, some err)
  | none => stepAux 16 s

/-- A reset state with the given program loaded at offset 0
(`LoadProgram(prog, 0)` on a fresh `State`). -/
def initState (prog : List Nat) : State :=
  { regs := fun _ => 0,
    ram := { emptyMemory with ram := fun addr => prog.getD addr 0 },
    lastError := none, step := stateStepFetch, cycleCost := 0,
    op := 0, a := 0, b := 0, delayed := false,
    address := Address.mk addressTypeNone 0 }

/-- Iterate `StepCycle` (dropping the returned error, as the run loop does
between error checks). -/
def stepN : Nat → State → State
  | 0, s => s
  | n + 1, s => stepN n (s.StepCycle).1

/-- Run `n` cycles from reset on a program loaded at 0. -/
def runCycles (prog : List Nat) (n : Nat) : State := stepN n (initState prog)

/-! ClockRate formatting (machine.go `ClockRate.String`). The Go code works
on `float64`; it is embedded exactly: every float64 value in range is an
exact rational, and each float64 operation produces the IEEE-754
round-to-nearest-even of the exact result. Exact rationals are carried as
unreduced numerator / positive-denominator pairs (`Frac`) so that every step
is plain integer arithmetic. -/

/-- An exact (unreduced) fraction: `num / den` with `den` positive. -/
structure Frac where
  num : Int
  den : Int
deriving DecidableEq

/-- Fraction comparison `a ≤ b` (positive denominators). -/
def Frac.le (a b : Frac) : Bool := decide (a.num * b.den ≤ b.num * a.den)

/-- Fraction comparison `a < b` (positive denominators). -/
def Frac.lt (a b : Frac) : Bool := decide (a.num * b.den < b.num * a.den)

/-- Multiply a fraction by `2 ^ k` for a signed `k`. -/
def Frac.mulPow2 (a : Frac) (k : Int) : Frac :=
  if 0 ≤ k then { num := a.num * 2 ^ k.toNat, den := a.den }
  else { num := a.num, den := a.den * 2 ^ (-k).toNat }

/-- Round a fraction to the nearest integer, ties to even (the rounding of
both IEEE-754 binary64 and Go `strconv`'s fixed-precision decimal output). -/
def roundHalfEven (a : Frac) : Int :=
  let f := a.num.fdiv a.den
  let r2 := 2 * (a.num - f * a.den)
  if r2 < a.den then f
  else if a.den < r2 then f + 1
  else if f % 2 = 0 then f else f + 1

/-- Floor of log2 of a fraction that is at least 1, by repeated halving
(the fuel covers far beyond the float64 range). -/
def log2UpF : Nat → Frac → Int
  | 0, _ => 0
  | fl + 1, q => if q.lt { num := 2, den := 1 } then 0
                 else log2UpF fl { num := q.num, den := q.den * 2 } + 1

/-- Floor of log2 of a positive fraction below 1, by repeated doubling. -/
def log2DownF : Nat → Frac → Int
  | 0, _ => 0
  | fl + 1, q => if Frac.le { num := 1, den := 1 } q then 0
                 else log2DownF fl { num := q.num * 2, den := q.den } - 1

/-- Floor of log2 of a positive fraction. -/
def flog2 (q : Frac) : Int :=
  if Frac.le { num := 1, den := 1 } q then log2UpF 1200 q else log2DownF 1200 q

/-- IEEE-754 binary64 rounding (round to nearest, ties to even) of an exact
value in the normal range: 53-bit significand at exponent `flog2 |q|`. -/
def float64Round (q : Frac) : Frac :=
  if q.num = 0 then { num := 0, den := 1 }
  else
    let aq : Frac := { num := |q.num|, den := q.den }
    let e := flog2 aq
    let mag := Frac.mulPow2 { num := roundHalfEven (aq.mulPow2 (52 - e)), den := 1 } (e - 52)
    if q.num < 0 then { num := -mag.num, den := mag.den } else mag

/-- Go `strconv.FormatFloat(x, 'f', 1, 64)` on an exact float64 value:
decimal fixed-point with one fractional digit, correctly rounded. -/
def formatFixed1 (q : Frac) : List Char :=
  let n := roundHalfEven { num := q.num * 10, den := q.den }
  let m := n.natAbs
  (if n < 0 then [Char.ofNat 45] else []) ++
    Nat.toDigits 10 (m / 10) ++ [Char.ofNat 46] ++ Nat.toDigits 10 (m % 10)

/-- Trim a trailing ".0" (Go `strings.HasSuffix(ratestr, ".0")` plus the
two-character slice). -/
def trimDotZero (l : List Char) : List Char :=
  match l.reverse with
  | c0 :: c1 :: rest =>
    if c0 = Char.ofNat 48 ∧ c1 = Char.ofNat 46 then rest.reverse else l
  | _ => l

/-- Go `ClockRate.String()` (machine.go): pick the Hz/KHz/MHz bucket, divide
(in float64), format with one decimal, and trim a trailing ".0". -/
def clockRateString (c : ℤ) : String :=
  let rate := float64Round { num := c, den := 1 }
  let rs :=
    if Frac.le { num := 1000000, den := 1 } rate then
      (float64Round { num := rate.num, den := rate.den * 1000000 }, ("MHz"))
    else if Frac.le { num := 1000, den := 1 } rate then
      (float64Round { num := rate.num, den := rate.den * 1000 }, ("KHz"))
    else (rate, ("Hz"))
  String.mk (trimDotZero (formatFixed1 rs.1) ++ rs.2.data)

/-! Claim theorems. -/

/-- C1 (code_bug evidence): the SHL execute case of `StepCycle` computes
`s.a << s.b` — the source operand shifted by the destination — instead of
the documented `b << a`. Running `SET B, 1; SHL B, 4` (words 0x8821, 0x942e;
B is the destination, 4 the short-literal source) for 1+2 cycles from reset
leaves B = 8 = 4 << 1, not the 16 = 1 << 4 the claim requires, with EX = 0. -/
theorem shl_shifts_reversed_operands :
    (runCycles [0x8821, 0x942e] 3).regs registerB = 8 ∧
    (runCycles [0x8821, 0x942e] 3).regs registerB ≠ 16 ∧
    (runCycles [0x8821, 0x942e] 3).regs registerEX = 0 ∧
    (runCycles [0x8821, 0x942e] 3).regs registerPC = 2 := by decide

/-- C2 (code_bug evidence): `MapRegion` accepts a region that strictly
contains an existing mapped region (its conflict test only probes `start`
and the value `length` as an address) and appends it at the end of the list,
out of ascending start order: after mapping [16, 32) and then [0, 64) on a
fresh memory, both calls succeed and the list is [(16, 16), (0, 64)] —
overlapping and unsorted. -/
theorem mapRegion_accepts_overlap_unsorted :
    ((emptyMemory.MapRegion 16 16 zget zset).toOption.bind fun m1 =>
      (m1.MapRegion 0 64 zget zset).toOption.map mappedSig) = some [(16, 16), (0, 64)] := by
  rfl

/-- C3 (code_bug evidence): `MemProtect(10, 5, true)` on a memory whose
protected list is [(0, 1)] returns success but adds nothing (the insertion
loop falls off the end of the list), so a subsequent `Store(12, 7)` succeeds
and writes the backing store instead of failing with a ProtectionError. -/
theorem memProtect_pastEnd_adds_nothing :
    (do
      let m1 ← emptyMemory.MemProtect 0 1 true
      let m2 ← m1.MemProtect 10 5 true
      let m3 ← m2.Store 12 7
      pure (m2.protectedList, m3.ram 12) : Except CoreError (List Region × Nat))
    = .ok ([⟨0, 1⟩], 7) := by rfl

/-- C4: `StepCycle` on a state with a latched error returns exactly that
error and the state itself, unchanged in every component. -/
theorem stepCycle_latched_error (s : State) (e : CoreError) (h : s.lastError = some e) :
    s.StepCycle = (s, some e) := by
  simp [State.StepCycle, h]

/-- A concrete halted state for the C4 witness. -/
def haltedState : State := { initState [] with lastError := some CoreError.halt }

/-- C4 witness: the latched-error theorem applied to a concrete halted state. -/
theorem stepCycle_latched_error_witness :
    haltedState.StepCycle = (haltedState, some CoreError.halt) :=
  stepCycle_latched_error haltedState CoreError.halt rfl

/-- C5: conditional-skip chains cost one cycle per skipped instruction.
With single-word IFE encodings (register b operand, short-literal a operand):
the program `IFE A,0; IFE A,0; SET A,1` (words 0x8412, 0x8412, 0x8801),
whose predicates are both true from reset, completes the SET after exactly
2+2+1 = 5 cycles (A = 1, PC past the SET, pipeline back at fetch, and A is
still 0 one cycle earlier); the program `IFE A,1; IFE A,0; SET A,1` (words
0x8812, 0x8412, 0x8801), whose first predicate is false, skips both
following instructions and reaches the word after the SET after exactly
2+1+1 = 4 cycles with A still 0 (and has not reached it one cycle earlier). -/
theorem ifx_chain_cycle_costs :
    ((runCycles [0x8412, 0x8412, 0x8801] 5).regs registerA = 1 ∧
     (runCycles [0x8412, 0x8412, 0x8801] 5).regs registerPC = 3 ∧
     (runCycles [0x8412, 0x8412, 0x8801] 5).step = stateStepFetch) ∧
    (runCycles [0x8412, 0x8412, 0x8801] 4).regs registerA = 0 ∧
    ((runCycles [0x8812, 0x8412, 0x8801] 4).regs registerA = 0 ∧
     (runCycles [0x8812, 0x8412, 0x8801] 4).regs registerPC = 3 ∧
     (runCycles [0x8812, 0x8412, 0x8801] 4).step = stateStepFetch) ∧
    (runCycles [0x8812, 0x8412, 0x8801] 3).regs registerPC ≠ 3 := by decide

/-- C6 (code_bug evidence): `UnmapRegion` shifts the tail of the mapped list
left but never truncates it, so mapping a region on a fresh memory and then
unmapping the exact same region reports success yet leaves the list equal to
[(0x8000, 0x400)] instead of restoring the empty prior list. -/
theorem unmapRegion_leaves_region_mapped :
    ((emptyMemory.MapRegion 0x8000 0x400 zget zset).toOption.bind fun m1 =>
      (m1.UnmapRegion 0x8000 0x400).toOption.map mappedSig) = some [(0x8000, 0x400)] := by
  rfl

/-- C7 (code_bug evidence): removing protection over a strict interior
subrange does not split the region: with [0x10, 0x30) protected,
`MemProtect(0x18, 8, false)` truncates the region to [0x10, 0x18) — the tail
[0x20, 0x30) loses its protection — and `Store(0x20, 7)` then succeeds and
writes the backing store instead of failing with a ProtectionError. -/
theorem memProtect_remove_drops_tail :
    (do
      let m1 ← emptyMemory.MemProtect 0x10 0x20 true
      let m2 ← m1.MemProtect 0x18 0x8 false
      let m3 ← m2.Store 0x20 0x7
      pure (m2.protectedList, m3.ram 0x20) : Except CoreError (List Region × Nat))
    = .ok ([⟨0x10, 0x8⟩], 0x7) := by rfl

/-- C8 counterexample: running `SET B, 7; SET EX, 5; MOD B, 0` (words
0xA021, 0x9BA1, 0x8428) from reset for 1+1+3 cycles sets the destination B
to 0 but leaves EX = 5: the MOD-by-zero case does not set EX to 0. -/
theorem mod_by_zero_keeps_ex_concrete :
    (runCycles [0xA021, 0x9BA1, 0x8428] 5).regs registerB = 0 ∧
    (runCycles [0xA021, 0x9BA1, 0x8428] 5).regs registerEX = 5 ∧
    (runCycles [0xA021, 0x9BA1, 0x8428] 5).regs registerEX ≠ 0 ∧
    (runCycles [0xA021, 0x9BA1, 0x8428] 5).step = stateStepFetch := by decide

/-- A state poised at the execute phase of `MOD dest, 0` with destination
register B holding `bv` and EX holding `exv` (the configuration `StepCycle`
reaches after fetching and decoding `MOD B, 0`, as in the concrete run of
the C8 counterexample). -/
def modExecState (bv exv : Nat) : State :=
  { regs := fun i => if i = registerB then bv else if i = registerEX then exv else 0,
    ram := emptyMemory, lastError := none, step := stateStepExecute, cycleCost := 1,
    op := opcodeMOD, a := 0, b := bv, delayed := false,
    address := Address.mk addressTypeRegister registerB }

/-- C8 amended: executing MOD with source operand a = 0 sets the destination
to 0 and leaves EX unchanged (equal to its prior value), for every
destination value and every prior EX, without error. -/
theorem mod_by_zero_dest_zero_ex_unchanged (bv exv : Nat) :
    ((modExecState bv exv).StepCycle).1.regs registerB = 0 ∧
    ((modExecState bv exv).StepCycle).1.regs registerEX = exv ∧
    ((modExecState bv exv).StepCycle).2 = none :=
  ⟨rfl, rfl, rfl⟩

/-- C9 counterexample: `ClockRate.String` of 99999 is not "99.9KHz" — the
one-decimal formatting rounds 99.999 up. -/
theorem clockRate_99999_not_99_9KHz : clockRateString 99999 ≠ "99.9KHz" := by decide

/-- C9 amended: the formatter picks the Hz/KHz/MHz bucket and rounds to one
decimal place, trimming a trailing ".0": String() of 99999 returns "100KHz"
(99.999 rounds up to 100.0, then the ".0" is trimmed) and String() of 1000
returns "1KHz". -/
theorem clockRate_format_examples :
    clockRateString 99999 = "100KHz" ∧ clockRateString 1000 = "1KHz" := by decide

/-- C10: the DVI execute case is total for nonzero source operands: for all
16-bit operand values a ≠ 0 and b, both Go signed divisions are defined
(no division-by-zero fault is possible, and the int16 overflow case
-32768 / -1 is defined by Go to wrap, as `dviCompute` models). -/
theorem dvi_divisions_total (av bv : Nat) (ha : av < 65536) (hb : bv < 65536)
    (hnz : av ≠ 0) : (dviCompute av bv).isSome = true := by
  have h16 : toInt16 av ≠ 0 := by
    unfold toInt16; split <;> omega
  have h32 : toInt32 av ≠ 0 := by
    unfold toInt32; split <;> omega
  unfold dviCompute goQuot
  rw [if_neg h16, if_neg h32]
  rfl

/-- C10 witness: the totality theorem at a = 0xFFFF (-1), b = 0x8000
(-32768), the int16 overflow pair. -/
theorem dvi_divisions_total_witness :
    (0xFFFF : Nat) < 65536 ∧ (0x8000 : Nat) < 65536 ∧ (0xFFFF : Nat) ≠ 0 ∧
    (dviCompute 0xFFFF 0x8000).isSome = true :=
  ⟨by decide, by decide, by decide,
    dvi_divisions_total 0xFFFF 0x8000 (by decide) (by decide) (by decide)⟩

end DCPU16
